import Mathlib

/-!
Verification development for the OCI image assembly and publishing core
(`pkg/build/oci/oci.go` of the apko repository).

The Go code is shallowly embedded as pure Lean functions:

* File and registry side effects are explicit: layer bytes are passed as a
  value, SBOM files are an oracle `String → Option (List Nat)`, and registry,
  daemon and environment collaborators are a record of oracle functions
  (`Oracles`).  Registry writes performed by an operation are reported in an
  explicit trace of `WriteEvent`s.
* Go `map[string]string` values are embedded as association lists carrying the
  map's (unspecified) iteration order; map semantics is recovered by stating
  theorems up to permutation of these lists with distinct keys.
* Content addressing is embedded by letting a digest be the canonical
  serialization of the manifest data itself (`encodeImage`), so that two
  manifests have equal digests exactly when their serialized contents agree.
  Cryptographic hashing, the registry wire protocol and gzip are collaborator
  concerns outside this core (spec §1) and are not re-modelled.
* Logging is not modelled, except that the "multiple SBOM formats" warning of
  `attachSBOM` is surfaced as an explicit boolean so that its policy is
  statable.
* `retry.Do` around remote writes collapses to a single oracle call: with a
  deterministic collaborator every attempt returns the same outcome, and the
  exhausted-retry error is the wrapped last failure.
-/

/-! ## Media types (go-containerregistry / cosign collaborator constants) -/

inductive MediaType where
  | ociLayer
  | dockerLayer
deriving DecidableEq, Repr

def MediaType.mtStr : MediaType → String
  | .ociLayer => "application/vnd.oci.image.layer.v1.tar+gzip"
  | .dockerLayer => "application/vnd.docker.image.rootfs.diff.tar.gzip"

def ociManifestMediaType : String := "application/vnd.oci.image.manifest.v1+json"

def ociConfigMediaType : String := "application/vnd.oci.image.config.v1+json"

def dockerManifestMediaType : String := "application/vnd.docker.distribution.manifest.v2+json"

def dockerConfigMediaType : String := "application/vnd.docker.container.image.v1+json"

def spdxJSONMediaType : String := "text/spdx+json"

def cycloneDXJSONMediaType : String := "application/vnd.cyclonedx+json"

def LocalDomain : String := "apko.local"

def LocalRepo : String := "cache"

/-! ## Architecture and platform -/

/-- Modelled from the spec: an `Architecture` is "a target platform identifier
... Value type, no identity beyond its string form" (spec §3).  The type
`types.Architecture` itself lives outside `pkg/build/oci/oci.go`. -/
abbrev Architecture := String

structure Platform where
  os : String
  architecture : String
  variant : String
deriving DecidableEq, Repr

/-- Modelled from the spec: `Architecture.ToOCIPlatform` "maps to (a) an OCI
platform descriptor" (spec §3) whose OS "is fixed to the single supported
value" (spec §4.1); the mapping itself is defined outside oci.go. -/
def toOCIPlatform (arch : Architecture) : Platform :=
  { os := "linux", architecture := arch, variant := "" }

/-- Modelled from the spec: `Architecture.ToAPK` maps to "an APK-style
architecture name used for SBOM file naming" (spec §3); the architecture has
"no identity beyond its string form", so the name is its string form. -/
def toAPK (arch : Architecture) : String := arch

/-! ## Digests: content addressing made literal -/

structure Hash where
  hex : String
deriving DecidableEq, Repr

/-- `v1.Hash.String()`: `algorithm ++ ":" ++ hex`. -/
def Hash.str (h : Hash) : String := "sha256:" ++ h.hex

/-- Digest of the compressed layer bytes (`v1Layer.Digest()`, computed by the
registry-client collaborator from the layer file's bytes). -/
def layerDigest (bytes : List Nat) : Hash := ⟨"layer:" ++ toString bytes⟩

/-- Diff-ID of the layer (`v1Layer.DiffID()`); decompression is deterministic,
so it is a function of the same bytes. -/
def layerDiffID (bytes : List Nat) : Hash := ⟨"diffid:" ++ toString bytes⟩

/-! ## The shlex tokenizer (github.com/google/shlex `Split`) -/

inductive ShState where
  | start
  | inWord
  | escaping
  | escapingQuoted
  | quotingEscaping
  | quoting
  | comment
deriving DecidableEq, Repr

def isSpaceChar (c : Char) : Bool :=
  c == ' ' || c == '\t' || c == '\r' || c == '\n'

/-- The shlex lexer state machine (`shlex.Split` collaborator), scanning the
input, accumulating the current word in `value` and completed words in `acc`.
Comment tokens are dropped, exactly as `shlex.Split` drops non-word tokens. -/
def shlexScan : List Char → ShState → List Char → List String → Except String (List String)
  | [], state, value, acc =>
    match state with
    | .start => .ok acc
    | .comment => .ok acc
    | .inWord => .ok (acc ++ [String.mk value])
    | .escaping => .error "EOF found after escape character"
    | .escapingQuoted => .error "EOF found after escape character"
    | .quotingEscaping => .error "EOF found when expecting closing quote"
    | .quoting => .error "EOF found when expecting closing quote"
  | c :: rest, state, value, acc =>
    match state with
    | .start =>
      if isSpaceChar c then shlexScan rest .start [] acc
      else if c == '"' then shlexScan rest .quotingEscaping value acc
      else if c == '\'' then shlexScan rest .quoting value acc
      else if c == '\\' then shlexScan rest .escaping value acc
      else if c == '#' then shlexScan rest .comment value acc
      else shlexScan rest .inWord (value ++ [c]) acc
    | .inWord =>
      if isSpaceChar c then shlexScan rest .start [] (acc ++ [String.mk value])
      else if c == '"' then shlexScan rest .quotingEscaping value acc
      else if c == '\'' then shlexScan rest .quoting value acc
      else if c == '\\' then shlexScan rest .escaping value acc
      else shlexScan rest .inWord (value ++ [c]) acc
    | .escaping => shlexScan rest .inWord (value ++ [c]) acc
    | .escapingQuoted => shlexScan rest .quotingEscaping (value ++ [c]) acc
    | .quotingEscaping =>
      if c == '"' then shlexScan rest .inWord value acc
      else if c == '\\' then shlexScan rest .escapingQuoted value acc
      else shlexScan rest .quotingEscaping (value ++ [c]) acc
    | .quoting =>
      if c == '\'' then shlexScan rest .inWord value acc
      else shlexScan rest .quoting (value ++ [c]) acc
    | .comment =>
      if c == '\n' then shlexScan rest .start [] acc
      else shlexScan rest .comment value acc

def shlexSplit (s : String) : Except String (List String) :=
  shlexScan s.data .start [] []

/-! ## Lexicographic string order (Go `sort.Strings` / `sort.Slice` on strings) -/

/-- Lexicographic comparison of character lists (Go byte-wise string order;
UTF-8 byte order and code-point order agree). -/
def lexLe : List Char → List Char → Bool
  | [], _ => true
  | _ :: _, [] => false
  | a :: as, b :: bs => if a < b then true else if b < a then false else lexLe as bs

def strLe (a b : String) : Bool := lexLe a.data b.data

/-- Go `sort.Strings`: sort ascending lexicographically. -/
def sortStrings (l : List String) : List String :=
  List.insertionSort (fun a b => strLe a b = true) l

/-- Sorting an association list by its keys: Go's "collect the map keys, sort
them, then index the map", for a map rendered as a list with distinct keys. -/
def sortPairs {β : Type} (l : List (String × β)) : List (String × β) :=
  List.insertionSort (fun p q => strLe p.1 q.1 = true) l

/-! ## ImageConfiguration (`types.ImageConfiguration`, read via oci.go) -/

structure ImageEntrypoint where
  shellFragment : String := ""
  command : String := ""
deriving DecidableEq, Repr

structure ImageAccounts where
  runAs : String := ""
deriving DecidableEq, Repr

/-- The fields of `types.ImageConfiguration` read by oci.go.  Go maps are
embedded as association lists in iteration order; `annotations` distinguishes
a nil map (`none`) from an empty one (`some []`) because oci.go branches on
nilness before aliasing the caller's map. -/
structure ImageConfiguration where
  entrypoint : ImageEntrypoint := {}
  cmd : String := ""
  workDir : String := ""
  environment : List (String × String) := []
  accounts : ImageAccounts := {}
  annotations : Option (List (String × String)) := none
  vcsUrl : String := ""
deriving DecidableEq, Repr

/-! ## Annotations (oci.go lines 114-127) -/

/-- Go map assignment `m[k] = v` on an association list in iteration order:
replace in place if the key is present, else append. -/
def updAnn (l : List (String × String)) (k v : String) : List (String × String) :=
  match l with
  | [] => [(k, v)]
  | a :: t => if a.1 = k then (k, v) :: t else a :: updAnn t k v

/-- `strings.Cut(s, "@")`: split at the first `@`, reporting whether one was
found. -/
def cutAtChar : List Char → Option (List Char × List Char)
  | [] => none
  | c :: rest =>
    if c = '@' then some ([], rest)
    else
      match cutAtChar rest with
      | some (pre, post) => some (c :: pre, post)
      | none => none

def cutVCS (s : String) : Option (String × String) :=
  match cutAtChar s.data with
  | some (pre, post) => some (String.mk pre, String.mk post)
  | none => none

/-- oci.go lines 118-123: if `ic.VCSUrl` is nonempty and contains `@`, write
the source and revision annotations into the annotations map. -/
def annotationsAfterVCS (annotations : List (String × String)) (vcsUrl : String) :
    List (String × String) :=
  if vcsUrl ≠ "" then
    match cutVCS vcsUrl with
    | some (url, hash) =>
        updAnn (updAnn annotations "org.opencontainers.image.source" url)
          "org.opencontainers.image.revision" hash
    | none => annotations
  else annotations

/-! ## Image artifacts -/

structure Layer where
  mediaType : String
  digest : Hash
  diffID : Hash
deriving DecidableEq, Repr

structure History where
  author : String
  comment : String
  createdBy : String
  created : Int
deriving DecidableEq, Repr

/-- The parts of `v1.ConfigFile` written by oci.go (lines 134-185).  Fields
not listed keep their zero value in the base image and are never read. -/
structure ConfigFile where
  author : String := ""
  architecture : String := ""
  variant : String := ""
  os : String := ""
  created : Int := 0
  entrypoint : List String := []
  cmd : List String := []
  workingDir : String := ""
  env : List String := []
  labels : List (String × String) := []
  user : String := ""
deriving DecidableEq, Repr

structure SBOMFile where
  mediaType : String
  bytes : List Nat
deriving DecidableEq, Repr

/-- A single-architecture image artifact: manifest media types, the one layer,
its history entry, manifest annotations (stored key-sorted, as Go's JSON
serialization of a map orders keys), the config blob, and the cosign SBOM
attachment.  The attachment is a side artifact: it is not part of the manifest
and does not enter the digest. -/
structure SignedImage where
  manifestMediaType : String
  configMediaType : String
  layers : List Layer
  history : List History
  annotations : List (String × String)
  config : ConfigFile
  sbom : Option SBOMFile := none
deriving DecidableEq, Repr

def encKV (p : String × String) : String := p.1 ++ "=" ++ p.2

def encList (l : List String) : String := String.intercalate "," l

def encLayer (l : Layer) : String :=
  l.mediaType ++ "!" ++ l.digest.hex ++ "!" ++ l.diffID.hex

def encHistory (h : History) : String :=
  h.author ++ "!" ++ h.comment ++ "!" ++ h.createdBy ++ "!" ++ toString h.created

def encConfig (c : ConfigFile) : String :=
  c.author ++ "|" ++ c.architecture ++ "|" ++ c.variant ++ "|" ++ c.os ++ "|"
    ++ toString c.created ++ "|" ++ encList c.entrypoint ++ "|" ++ encList c.cmd ++ "|"
    ++ c.workingDir ++ "|" ++ encList c.env ++ "|" ++ encList (c.labels.map encKV) ++ "|"
    ++ c.user

/-- Canonical serialization of the image's manifest graph (manifest, config
blob, layer descriptors, annotations).  The SBOM attachment deliberately does
not appear: attaching a file does not alter the subject image's manifest. -/
def encodeImage (i : SignedImage) : String :=
  i.manifestMediaType ++ "&" ++ i.configMediaType ++ "&"
    ++ encList (i.layers.map encLayer) ++ "&" ++ encList (i.history.map encHistory) ++ "&"
    ++ encList (i.annotations.map encKV) ++ "&" ++ encConfig i.config

/-- `v1Image.Digest()`: content address of the manifest. -/
def imageDigest (i : SignedImage) : Hash := ⟨encodeImage i⟩

/-- `img.Size()`: manifest size in bytes. -/
def imageSize (i : SignedImage) : Nat := (encodeImage i).length

/-! ## Index artifacts -/

inductive IndexMediaType where
  | ociImageIndex
  | dockerManifestList
deriving DecidableEq, Repr

def IndexMediaType.mtStr : IndexMediaType → String
  | .ociImageIndex => "application/vnd.oci.image.index.v1+json"
  | .dockerManifestList => "application/vnd.docker.distribution.manifest.list.v2+json"

/-- One index manifest entry: the member image and its descriptor
(`ocimutate.IndexAddendum`). -/
structure IndexEntry where
  image : SignedImage
  descMediaType : String
  descDigest : Hash
  descSize : Nat
  platform : Platform
deriving DecidableEq, Repr

structure SignedIndex where
  mediaType : IndexMediaType
  manifests : List IndexEntry
  sbom : Option SBOMFile := none
deriving DecidableEq, Repr

def encIndexEntry (e : IndexEntry) : String :=
  e.descMediaType ++ "!" ++ e.descDigest.hex ++ "!" ++ toString e.descSize ++ "!"
    ++ e.platform.os ++ "!" ++ e.platform.architecture ++ "!" ++ e.platform.variant

def encodeIndex (x : SignedIndex) : String :=
  x.mediaType.mtStr ++ "&" ++ encList (x.manifests.map encIndexEntry)

def indexDigest (x : SignedIndex) : Hash := ⟨encodeIndex x⟩

/-- `oci.SignedEntity`: an image or an index (the two runtime kinds reaching
`attachSBOM` and `writePeripherals` in oci.go). -/
inductive SignedEntity where
  | image (img : SignedImage)
  | index (idx : SignedIndex)
deriving DecidableEq, Repr

def SignedEntity.setSBOM : SignedEntity → SBOMFile → SignedEntity
  | .image i, f => .image { i with sbom := some f }
  | .index x, f => .index { x with sbom := some f }

def SignedEntity.sbomOf : SignedEntity → Option SBOMFile
  | .image i => i.sbom
  | .index x => x.sbom

def SignedEntity.digestOf : SignedEntity → Hash
  | .image i => imageDigest i
  | .index x => indexDigest x

/-! ## SBOM attachment (oci.go `attachSBOM`, lines 232-289) -/

/-- oci.go lines 245-248: the APK architecture name, or "index" when empty. -/
def sbomArchName (arch : Architecture) : String :=
  if toAPK arch = "" then "index" else toAPK arch

/-- The format switch of `attachSBOM` (lines 249-261): media type and file
name for a requested format, or `none` for an unsupported format. -/
def sbomSpec (format : String) (archName : String) : Option (String × String) :=
  match format with
  | "spdx" => some (spdxJSONMediaType, "sbom-" ++ archName ++ ".spdx.json")
  | "cyclonedx" => some (cycloneDXJSONMediaType, "sbom-" ++ archName ++ ".cdx")
  | "idb" => some ("application/vnd.apko.installed-db", "sbom-" ++ archName ++ ".idb")
  | _ => none

/-- `filepath.Join` for the two-component case used here. -/
def joinPath (dir file : String) : String :=
  if dir = "" then file else dir ++ "/" ++ file

/-- `attachSBOM`: no-op for an empty format list; otherwise attach the file of
the first requested format under the "sbom" slot.  The boolean reports whether
the "multiple SBOM formats requested" warning was emitted.  `fs` is the
filesystem oracle: `none` means `os.ReadFile` failed. -/
def attachSBOM (si : SignedEntity) (sbomPath : String) (sbomFormats : List String)
    (arch : Architecture) (fs : String → Option (List Nat)) :
    Except String (SignedEntity × Bool) :=
  match sbomFormats with
  | [] => .ok (si, false)
  | format :: rest =>
    match sbomSpec format (sbomArchName arch) with
    | none => .error ("unsupported SBOM format: " ++ format)
    | some (mt, fileName) =>
      match fs (joinPath sbomPath fileName) with
      | none => .error "reading sbom"
      | some bytes => .ok (si.setSBOM { mediaType := mt, bytes := bytes }, !rest.isEmpty)

/-! ## Config synthesis (oci.go lines 129-190) -/

def defaultPathEnv : String :=
  "PATH=/usr/local/sbin:/usr/local/bin:/usr/sbin:/usr/bin:/sbin:/bin"

def defaultSSLCertEnv : String :=
  "SSL_CERT_FILE=/etc/ssl/certs/ca-certificates.crt"

/-- Entrypoint switch (lines 144-153): shell fragment wins, else the command
string is shlex-tokenized, else the entrypoint stays empty. -/
def applyEntrypoint (cfg : ConfigFile) (ic : ImageConfiguration) : Except String ConfigFile :=
  if ic.entrypoint.shellFragment ≠ "" then
    .ok { cfg with entrypoint := ["/bin/sh", "-c", ic.entrypoint.shellFragment] }
  else if ic.entrypoint.command ≠ "" then
    match shlexSplit ic.entrypoint.command with
    | .error e => .error ("unable to parse entrypoint command: " ++ e)
    | .ok splitcmd => .ok { cfg with entrypoint := splitcmd }
  else .ok cfg

/-- Cmd tokenization (lines 155-161). -/
def applyCmd (cfg : ConfigFile) (ic : ImageConfiguration) : Except String ConfigFile :=
  if ic.cmd ≠ "" then
    match shlexSplit ic.cmd with
    | .error e => .error ("unable to parse cmd: " ++ e)
    | .ok splitcmd => .ok { cfg with cmd := splitcmd }
  else .ok cfg

/-- Working directory (lines 163-165). -/
def applyWorkDir (cfg : ConfigFile) (ic : ImageConfiguration) : ConfigFile :=
  if ic.workDir ≠ "" then { cfg with workingDir := ic.workDir } else cfg

def renderEnv (p : String × String) : String := p.1 ++ "=" ++ p.2

/-- Environment (lines 167-181): render `KEY=VALUE` over the map's iteration
order and sort, or install the fixed default pair. -/
def applyEnv (cfg : ConfigFile) (ic : ImageConfiguration) : ConfigFile :=
  if 0 < ic.environment.length then
    { cfg with env := sortStrings (ic.environment.map renderEnv) }
  else
    { cfg with env := [defaultPathEnv, defaultSSLCertEnv] }

/-- Run-as user (lines 183-185). -/
def applyUser (cfg : ConfigFile) (ic : ImageConfiguration) : ConfigFile :=
  if ic.accounts.runAs ≠ "" then { cfg with user := ic.accounts.runAs } else cfg

/-- Lines 129-185: deep-copy the base config (value semantics here), stamp the
fixed author, platform fields, creation time, fresh labels and OS, then apply
entrypoint, cmd, working dir, environment and user in source order. -/
def synthConfig (ic : ImageConfiguration) (created : Int) (arch : Architecture) :
    Except String ConfigFile :=
  let platform := toOCIPlatform arch
  let cfg : ConfigFile :=
    { author := "github.com/chainguard-dev/apko"
      architecture := platform.architecture
      variant := platform.variant
      created := created
      labels := []
      os := "linux" }
  match applyEntrypoint cfg ic with
  | .error e => .error e
  | .ok c1 =>
    match applyCmd c1 ic with
    | .error e => .error e
    | .ok c2 => .ok (applyUser (applyEnv (applyWorkDir c2 ic) ic) ic)

/-! ## Image assembly (oci.go `buildImageFromLayerWithMediaType`, lines 70-200) -/

/-- `buildImageFromLayerWithMediaType`, as a function of the layer's bytes and
the oracles.  Loading the layer from a valid file, its digest and diff-ID are
collaborator computations on those bytes (lines 74-90); the assembled image
carries the one layer with its fixed history entry (92-101), ecosystem media
types (103-108), the annotations when not targeting the Docker media type
(114-127, stored key-sorted as serialization does), the synthesized config
(129-190) and the optional SBOM attachment (192-199). -/
def buildImageFromLayerWithMediaType (mediaType : MediaType) (layerBytes : List Nat)
    (ic : ImageConfiguration) (created : Int) (arch : Architecture)
    (fs : String → Option (List Nat)) (sbomPath : String) (sbomFormats : List String) :
    Except String SignedImage :=
  let v1Layer : Layer :=
    { mediaType := mediaType.mtStr, digest := layerDigest layerBytes
      diffID := layerDiffID layerBytes }
  let hist : History :=
    { author := "apko", comment := "This is an apko single-layer image"
      createdBy := "apko", created := created }
  let manifestMT := if mediaType = MediaType.ociLayer then ociManifestMediaType
    else dockerManifestMediaType
  let configMT := if mediaType = MediaType.ociLayer then ociConfigMediaType
    else dockerConfigMediaType
  let ann := annotationsAfterVCS (ic.annotations.getD []) ic.vcsUrl
  let imgAnn :=
    if mediaType ≠ MediaType.dockerLayer ∧ 0 < ann.length then sortPairs ann else []
  match synthConfig ic created arch with
  | .error e => .error e
  | .ok cfg =>
    let si : SignedImage :=
      { manifestMediaType := manifestMT, configMediaType := configMT
        layers := [v1Layer], history := [hist], annotations := imgAnn
        config := cfg, sbom := none }
    match attachSBOM (SignedEntity.image si) sbomPath sbomFormats arch fs with
    | .error e => .error ("attaching SBOM to image: " ++ e)
    | .ok (SignedEntity.image si2, _) => .ok si2
    | .ok (SignedEntity.index _, _) =>
      .error "unable to cast signed signedentity as image or index"

/-- The caller's `ImageConfiguration` as observable after
`buildImageFromLayerWithMediaType` returns.  Go maps are reference values:
line 114 aliases `ic.Annotations` when it is non-nil, and lines 118-123 then
assign through the alias, so the caller's map receives the VCS-derived keys.
When `ic.Annotations` is nil a fresh map is allocated and the caller sees no
change.  The mutation happens before any config-synthesis failure, so it is
unconditional on the call's success. -/
def buildImageICAfter (ic : ImageConfiguration) : ImageConfiguration :=
  match ic.annotations with
  | none => ic
  | some m => { ic with annotations := some (annotationsAfterVCS m ic.vcsUrl) }

/-! ## Publishing (oci.go lines 321-520) -/

/-- A write against an external store, as recorded in an operation's trace. -/
inductive WriteEvent where
  | daemonWrite (tag : String)
  | daemonTag (src dst : String)
  | sbomWrite (ref : String)
  | primaryWrite (ref : String)
deriving DecidableEq, Repr

/-- `name.Digest`: a digest reference scoped to a repository context.  The Go
zero value `name.Digest{}` is `⟨"", ""⟩`. -/
structure NameDigest where
  context : String
  digestStr : String
deriving DecidableEq, Repr

/-- The external collaborators of the publish path: reference parsing
(`name.ParseReference`, yielding the repository context), tag validation
(`name.NewTag`), the local daemon, the `COSIGN_REPOSITORY` override
(`ociremote.GetEnvTargetRepository`), the remote registry write, and the
`GOOS`/`GOARCH` environment pair. -/
structure Oracles where
  parseCtx : String → Option String
  validTag : String → Bool
  daemonWrite : String → Except String String
  daemonTag : String → String → Except String Unit
  envTargetRepo : Except String (Option String)
  remoteWrite : String → Except String Unit
  goos : String
  goarch : String

/-- `writePeripherals` (lines 522-574) applied to one entity: resolve the
`COSIGN_REPOSITORY` override, derive the conventional SBOM tag from the
entity's own digest, skip silently when the entity has no "sbom" attachment,
otherwise write it (with retry) to the registry. -/
def writePeripherals (o : Oracles) (ctxRepo : String) (se : SignedEntity) :
    Except String Unit × List WriteEvent :=
  match o.envTargetRepo with
  | .error e => (.error e, [])
  | .ok override =>
    let repo := override.getD ctxRepo
    let sbomRef := repo ++ ":sha256-" ++ se.digestOf.hex ++ ".sbom"
    match se.sbomOf with
    | none => (.ok (), [])
    | some _ =>
      match o.remoteWrite sbomRef with
      | .error e => (.error ("writing sbom: " ++ e), [WriteEvent.sbomWrite sbomRef])
      | .ok _ => (.ok (), [WriteEvent.sbomWrite sbomRef])

/-- `publishTagFromImage` (lines 321-355).  Local: the daemon write targets
the fixed local namespace keyed by the digest hex, and the returned reference
pairs the requested repository context with the digest.  Remote: peripherals
first, then the retried primary write. -/
def publishTagFromImage (o : Oracles) (image : SignedImage) (imageRef : String)
    (hash : Hash) (isLocal : Bool) : Except String NameDigest × List WriteEvent :=
  match o.parseCtx imageRef with
  | none => (.error "unable to parse reference", [])
  | some ctx =>
    if isLocal then
      let localTag := LocalDomain ++ "/" ++ LocalRepo ++ ":" ++ hash.hex
      if o.validTag localTag then
        match o.daemonWrite localTag with
        | .error e =>
          (.error ("failed to save OCI image locally: " ++ e), [WriteEvent.daemonWrite localTag])
        | .ok _resp =>
          (.ok { context := ctx, digestStr := hash.str }, [WriteEvent.daemonWrite localTag])
      else (.error "invalid local tag", [])
    else
      match writePeripherals o ctx (SignedEntity.image image) with
      | (.error e, tr) => (.error e, tr)
      | (.ok _, tr) =>
        match o.remoteWrite imageRef with
        | .error e =>
          (.error ("failed to publish: " ++ e), tr ++ [WriteEvent.primaryWrite imageRef])
        | .ok _ =>
          (.ok { context := ctx, digestStr := hash.str }, tr ++ [WriteEvent.primaryWrite imageRef])

/-- The tag loop of `publishImageFromLayerWithMediaType` (lines 377-383):
sequential, fail-fast, keeping the digest of the most recent successful tag. -/
def publishLoop (o : Oracles) (image : SignedImage) (hash : Hash) (isLocal : Bool) :
    List String → NameDigest → List WriteEvent → Except String NameDigest × List WriteEvent
  | [], digest, tr => (.ok digest, tr)
  | tag :: rest, _, tr =>
    match publishTagFromImage o image tag hash isLocal with
    | (.error e, tr2) => (.error e, tr ++ tr2)
    | (.ok d, tr2) => publishLoop o image hash isLocal rest d (tr ++ tr2)

/-- `publishImageFromLayerWithMediaType` (lines 365-385): build, digest, then
publish every requested tag in order. -/
def publishImageFromLayerWithMediaType (o : Oracles) (mediaType : MediaType)
    (layerBytes : List Nat) (ic : ImageConfiguration) (created : Int) (arch : Architecture)
    (fs : String → Option (List Nat)) (sbomPath : String) (sbomFormats : List String)
    (isLocal : Bool) (tags : List String) :
    Except String (NameDigest × SignedImage) × List WriteEvent :=
  match buildImageFromLayerWithMediaType mediaType layerBytes ic created arch fs
      sbomPath sbomFormats with
  | .error e => (.error e, [])
  | .ok v1Image =>
    let h := imageDigest v1Image
    match publishLoop o v1Image h isLocal tags { context := "", digestStr := "" } [] with
    | (.error e, tr) => (.error e, tr)
    | (.ok digest, tr) => (.ok (digest, v1Image), tr)

def PublishImageFromLayer (o : Oracles) (layerBytes : List Nat) (ic : ImageConfiguration)
    (created : Int) (arch : Architecture) (fs : String → Option (List Nat))
    (sbomPath : String) (sbomFormats : List String) (isLocal : Bool) (tags : List String) :
    Except String (NameDigest × SignedImage) × List WriteEvent :=
  publishImageFromLayerWithMediaType o MediaType.ociLayer layerBytes ic created arch fs
    sbomPath sbomFormats isLocal tags

def PublishDockerImageFromLayer (o : Oracles) (layerBytes : List Nat) (ic : ImageConfiguration)
    (created : Int) (arch : Architecture) (fs : String → Option (List Nat))
    (sbomPath : String) (sbomFormats : List String) (isLocal : Bool) (tags : List String) :
    Except String (NameDigest × SignedImage) × List WriteEvent :=
  publishImageFromLayerWithMediaType o MediaType.dockerLayer layerBytes ic created arch fs
    sbomPath sbomFormats isLocal tags

/-! ## Index assembly and publishing (oci.go lines 387-520) -/

/-- The assembly loop of `publishIndexWithMediaType` (lines 396-430): iterate
the architectures in sorted string order and append each member with a
descriptor carrying its media type, digest, size and OCI platform. -/
def assembleEntries (imgs : List (Architecture × SignedImage)) : List IndexEntry :=
  (sortPairs imgs).map fun p =>
    { image := p.2
      descMediaType := p.2.manifestMediaType
      descDigest := imageDigest p.2
      descSize := imageSize p.2
      platform := toOCIPlatform p.1 }

def assembleIndex (mediaType : IndexMediaType) (imgs : List (Architecture × SignedImage)) :
    SignedIndex :=
  { mediaType := mediaType, manifests := assembleEntries imgs, sbom := none }

/-- `walk.SignedEntity` over an index with the `writePeripherals` callback:
the index itself, then each member image. -/
def walkPeripherals (o : Oracles) (ctxRepo : String) (idx : SignedIndex) :
    Except String Unit × List WriteEvent :=
  (SignedEntity.index idx :: idx.manifests.map fun m => SignedEntity.image m.image).foldl
    (fun acc se =>
      match acc with
      | (.error e, tr) => (.error e, tr)
      | (.ok _, tr) =>
        match writePeripherals o ctxRepo se with
        | (.error e, tr2) => (.error e, tr ++ tr2)
        | (.ok _, tr2) => (.ok (), tr ++ tr2))
    (.ok (), [])

/-- `publishTagFromIndex` (lines 502-520). -/
def publishTagFromIndex (o : Oracles) (index : SignedIndex) (imageRef : String)
    (hash : Hash) : Except String NameDigest × List WriteEvent :=
  match o.parseCtx imageRef with
  | none => (.error "unable to parse reference", [])
  | some ctx =>
    match walkPeripherals o ctx index with
    | (.error e, tr) => (.error e, tr)
    | (.ok _, tr) =>
      match o.remoteWrite imageRef with
      | .error e =>
        (.error ("failed to publish: " ++ e), tr ++ [WriteEvent.primaryWrite imageRef])
      | .ok _ =>
        (.ok { context := ctx, digestStr := hash.str }, tr ++ [WriteEvent.primaryWrite imageRef])

/-- The index tag loop (lines 490-497): fail-fast, last digest kept. -/
def publishIndexLoop (o : Oracles) (index : SignedIndex) (hash : Hash) :
    List String → NameDigest → List WriteEvent → Except String NameDigest × List WriteEvent
  | [], digest, tr => (.ok digest, tr)
  | tag :: rest, _, tr =>
    match publishTagFromIndex o index tag hash with
    | (.error e, tr2) => (.error e, tr ++ tr2)
    | (.ok d, tr2) => publishIndexLoop o index hash rest d (tr ++ tr2)

/-- Local index promotion tag loop (lines 468-477): re-tag the native-platform
member under each requested destination. -/
def tagAliasLoop (o : Oracles) (src : String) : List String → Except String Unit × List WriteEvent
  | [] => (.ok (), [])
  | tag :: rest =>
    if o.validTag tag then
      match o.daemonTag src tag with
      | .error e => (.error e, [WriteEvent.daemonTag src tag])
      | .ok _ =>
        match tagAliasLoop o src rest with
        | (res, tr) => (res, WriteEvent.daemonTag src tag :: tr)
    else (.error "invalid tag", [])

/-- `publishIndexWithMediaType` (lines 395-500).  The `ImageConfiguration`
parameter is discarded (`_` in the source).  Local flow: find the first
manifest matching the native `GOOS`/`GOARCH` pair (defaulting to
linux/amd64), alias it under the requested tags, and return a digest built
from the alias name and that manifest's digest; with no match, fall through.
Remote (and fallthrough) flow: digest the index and publish every tag. -/
def publishIndexWithMediaType (o : Oracles) (mediaType : IndexMediaType)
    (_ic : ImageConfiguration) (imgs : List (Architecture × SignedImage))
    (isLocal : Bool) (tags : List String) :
    Except String (NameDigest × SignedIndex) × List WriteEvent :=
  let idx := assembleIndex mediaType imgs
  let publishAll :=
    match publishIndexLoop o idx (indexDigest idx) tags { context := "", digestStr := "" } [] with
    | (.error e, tr) => ((.error e : Except String (NameDigest × SignedIndex)), tr)
    | (.ok digest, tr) => (.ok (digest, idx), tr)
  if isLocal then
    let goos := if o.goos = "" then "linux" else o.goos
    let goarch := if o.goarch = "" then "amd64" else o.goarch
    match idx.manifests.find? fun m =>
        m.platform.os == goos && m.platform.architecture == goarch with
    | some manifest =>
      let localSrcTagStr := LocalDomain ++ "/" ++ LocalRepo ++ ":" ++ manifest.descDigest.hex
      if o.validTag localSrcTagStr then
        match tagAliasLoop o localSrcTagStr tags with
        | (.error e, tr) => (.error e, tr)
        | (.ok _, tr) =>
          (.ok ({ context := localSrcTagStr, digestStr := manifest.descDigest.str }, idx), tr)
      else (.error "invalid local source tag", [])
    | none => publishAll
  else publishAll

def PublishIndex (o : Oracles) (ic : ImageConfiguration)
    (imgs : List (Architecture × SignedImage)) (isLocal : Bool) (tags : List String) :
    Except String (NameDigest × SignedIndex) × List WriteEvent :=
  publishIndexWithMediaType o IndexMediaType.ociImageIndex ic imgs isLocal tags

def PublishDockerIndex (o : Oracles) (ic : ImageConfiguration)
    (imgs : List (Architecture × SignedImage)) (isLocal : Bool) (tags : List String) :
    Except String (NameDigest × SignedIndex) × List WriteEvent :=
  publishIndexWithMediaType o IndexMediaType.dockerManifestList ic imgs isLocal tags

/-! ## Concrete fixtures for evaluation -/

def defImage : SignedImage :=
  { manifestMediaType := "", configMediaType := "", layers := [], history := []
    annotations := [], config := {}, sbom := none }

def fsNone : String → Option (List Nat) := fun _ => none

/-- A filesystem holding exactly the SPDX SBOM for amd64 under directory `p`. -/
def fsSpdx : String → Option (List Nat) :=
  fun p => if p = "p/sbom-amd64.spdx.json" then some [1] else none

def icTriv : ImageConfiguration := {}

def buildCx : Except String SignedImage :=
  buildImageFromLayerWithMediaType MediaType.ociLayer [] icTriv 0 "amd64" fsNone "" []

def imgCx : SignedImage := buildCx.toOption.getD defImage

/-- A registry in which writing the reference "t1" fails and every other
write succeeds. -/
def oCx : Oracles :=
  { parseCtx := fun r => some r
    validTag := fun _ => true
    daemonWrite := fun _ => .ok ""
    daemonTag := fun _ _ => .ok ()
    envTargetRepo := .ok none
    remoteWrite := fun r => if r = "t1" then .error "boom" else .ok ()
    goos := "", goarch := "" }

/-- A fully coöperating set of collaborators resolving every reference to the
repository "dest.io/repo". -/
def oW9 : Oracles :=
  { parseCtx := fun _ => some "dest.io/repo"
    validTag := fun _ => true
    daemonWrite := fun _ => .ok ""
    daemonTag := fun _ _ => .ok ()
    envTargetRepo := .ok none
    remoteWrite := fun _ => .ok ()
    goos := "", goarch := "" }

def icW1 : ImageConfiguration :=
  { environment := [("B", "2"), ("A", "1")], annotations := some [("k", "v"), ("a", "b")]
    vcsUrl := "https://github.com/x/y@deadbeef" }

def icW2 : ImageConfiguration :=
  { environment := [("A", "1"), ("B", "2")], annotations := some [("a", "b"), ("k", "v")]
    vcsUrl := "https://github.com/x/y@deadbeef" }

def icW4 : ImageConfiguration := { environment := [("B", "2"), ("A", "1")] }

def buildW4 : Except String SignedImage :=
  buildImageFromLayerWithMediaType MediaType.ociLayer [] icW4 0 "amd64" fsNone "" []

def imgW4 : SignedImage := buildW4.toOption.getD defImage

def icW5 : ImageConfiguration :=
  { entrypoint := { shellFragment := "echo hi", command := "ls -la" } }

def buildW5 : Except String SignedImage :=
  buildImageFromLayerWithMediaType MediaType.ociLayer [] icW5 0 "amd64" fsNone "" []

def imgW5 : SignedImage := buildW5.toOption.getD defImage

/-- A cmd string with an unterminated double quote. -/
def icW8 : ImageConfiguration := { cmd := "\"abc" }

/-- C3 failing input: a non-nil annotations map and a VCS URL containing `@`. -/
def icC3 : ImageConfiguration :=
  { annotations := some [("team", "apko")], vcsUrl := "https://github.com/x/y@deadbeef" }

def imgB : SignedImage := { defImage with manifestMediaType := ociManifestMediaType }

def imgsW6 : List (Architecture × SignedImage) := [("arm64", defImage), ("amd64", imgB)]

/-! ## Order and permutation machinery -/

theorem lexLe_total : ∀ as bs : List Char, lexLe as bs = true ∨ lexLe bs as = true := by
  intro as
  induction as with
  | nil => intro bs; left; rfl
  | cons a as ih =>
    intro bs
    cases bs with
    | nil => right; rfl
    | cons b bs =>
      rcases lt_trichotomy a b with h | h | h
      · left; simp [lexLe, h]
      · subst h
        rcases ih bs with h2 | h2
        · left; simpa [lexLe, lt_irrefl] using h2
        · right; simpa [lexLe, lt_irrefl] using h2
      · right; simp [lexLe, h]

theorem lexLe_trans : ∀ as bs cs : List Char,
    lexLe as bs = true → lexLe bs cs = true → lexLe as cs = true := by
  intro as
  induction as with
  | nil => intro bs cs _ _; rfl
  | cons a as ih =>
    intro bs cs h1 h2
    cases bs with
    | nil => simp [lexLe] at h1
    | cons b bs =>
      cases cs with
      | nil => simp [lexLe] at h2
      | cons c cs =>
        by_cases hab : a < b
        · by_cases hbc : b < c
          · simp [lexLe, lt_trans hab hbc]
          · by_cases hcb : c < b
            · simp [lexLe, hbc, hcb] at h2
            · have hbeq : b = c := le_antisymm (not_lt.mp hcb) (not_lt.mp hbc)
              subst hbeq
              simp [lexLe, hab]
        · by_cases hba : b < a
          · simp [lexLe, hab, hba] at h1
          · have haeq : a = b := le_antisymm (not_lt.mp hba) (not_lt.mp hab)
            subst haeq
            simp only [lexLe, lt_irrefl, if_false] at h1
            by_cases hac : a < c
            · simp [lexLe, hac]
            · by_cases hca : c < a
              · simp [lexLe, hac, hca] at h2
              · have haeq2 : a = c := le_antisymm (not_lt.mp hca) (not_lt.mp hac)
                subst haeq2
                simp only [lexLe, lt_irrefl, if_false] at h2 ⊢
                exact ih bs cs h1 h2

theorem lexLe_antisymm : ∀ as bs : List Char,
    lexLe as bs = true → lexLe bs as = true → as = bs := by
  intro as
  induction as with
  | nil =>
    intro bs _ h2
    cases bs with
    | nil => rfl
    | cons b bs => simp [lexLe] at h2
  | cons a as ih =>
    intro bs h1 h2
    cases bs with
    | nil => simp [lexLe] at h1
    | cons b bs =>
      by_cases hab : a < b
      · simp [lexLe, hab, asymm hab] at h2
      · by_cases hba : b < a
        · simp [lexLe, hab, hba] at h1
        · have haeq : a = b := le_antisymm (not_lt.mp hba) (not_lt.mp hab)
          subst haeq
          simp only [lexLe, lt_irrefl, if_false] at h1 h2
          rw [ih bs h1 h2]

theorem strLe_total (a b : String) : strLe a b = true ∨ strLe b a = true :=
  lexLe_total a.data b.data

theorem strLe_trans {a b c : String} (h1 : strLe a b = true) (h2 : strLe b c = true) :
    strLe a c = true :=
  lexLe_trans a.data b.data c.data h1 h2

theorem strLe_antisymm {a b : String} (h1 : strLe a b = true) (h2 : strLe b a = true) :
    a = b := by
  have := lexLe_antisymm a.data b.data h1 h2
  cases a; cases b; exact congrArg String.mk this

instance : IsTotal String fun a b => strLe a b = true := ⟨strLe_total⟩

instance : IsTrans String fun a b => strLe a b = true := ⟨fun _ _ _ => strLe_trans⟩

instance : IsAntisymm String fun a b => strLe a b = true := ⟨fun _ _ => strLe_antisymm⟩

instance {β : Type} : IsTotal (String × β) fun p q => strLe p.1 q.1 = true :=
  ⟨fun p q => strLe_total p.1 q.1⟩

instance {β : Type} : IsTrans (String × β) fun p q => strLe p.1 q.1 = true :=
  ⟨fun _ _ _ => strLe_trans⟩

/-- Sorting the rendered environment is invariant under the map's iteration
order. -/
theorem sortStrings_eq_of_perm {l1 l2 : List String} (h : List.Perm l1 l2) :
    sortStrings l1 = sortStrings l2 :=
  List.eq_of_perm_of_sorted
    ((List.perm_insertionSort _ l1).trans (h.trans (List.perm_insertionSort _ l2).symm))
    (List.sorted_insertionSort _ l1) (List.sorted_insertionSort _ l2)

/-- Key-sorting an association list with distinct keys is invariant under
permutation (Go: iterating a map in sorted key order is deterministic). -/
theorem sortPairs_eq_of_perm {β : Type} {l1 l2 : List (String × β)}
    (h : List.Perm l1 l2) (hnd : (l1.map Prod.fst).Nodup) :
    sortPairs l1 = sortPairs l2 := by
  have hperm : List.Perm (sortPairs l1) (sortPairs l2) :=
    (List.perm_insertionSort _ l1).trans (h.trans (List.perm_insertionSort _ l2).symm)
  have hnd1 : ((sortPairs l1).map Prod.fst).Nodup :=
    (((List.perm_insertionSort _ l1).map Prod.fst).nodup_iff).mpr hnd
  have hnd2 : ((sortPairs l2).map Prod.fst).Nodup :=
    (((List.perm_insertionSort _ l2).map Prod.fst).nodup_iff).mpr
      (((h.map Prod.fst).nodup_iff).mp hnd)
  have hs1 : List.Sorted (fun p q : String × β => strLe p.1 q.1 = true) (sortPairs l1) :=
    List.sorted_insertionSort _ l1
  have hs2 : List.Sorted (fun p q : String × β => strLe p.1 q.1 = true) (sortPairs l2) :=
    List.sorted_insertionSort _ l2
  have hne1 : (sortPairs l1).Pairwise fun p q : String × β => p.1 ≠ q.1 :=
    List.pairwise_map.mp hnd1
  have hne2 : (sortPairs l2).Pairwise fun p q : String × β => p.1 ≠ q.1 :=
    List.pairwise_map.mp hnd2
  haveI : IsAntisymm (String × β) (fun p q => strLe p.1 q.1 = true ∧ p.1 ≠ q.1) :=
    ⟨fun p q h1 h2 => absurd (strLe_antisymm h1.1 h2.1) h1.2⟩
  exact List.eq_of_perm_of_sorted hperm (hs1.and hne1) (hs2.and hne2)

/-! ### Map update (`updAnn`) under permutation -/

theorem mem_fst_updAnn {l : List (String × String)} {k v x : String}
    (h : x ∈ (updAnn l k v).map Prod.fst) : x ∈ l.map Prod.fst ∨ x = k := by
  induction l with
  | nil => simp [updAnn] at h; simp [h]
  | cons a t ih =>
    by_cases hk : a.1 = k
    · simp only [updAnn, if_pos hk, List.map_cons, List.mem_cons] at h
      rcases h with h | h
      · right; exact h
      · left; rw [List.map_cons]; exact List.mem_cons_of_mem _ h
    · simp only [updAnn, if_neg hk, List.map_cons, List.mem_cons] at h
      rcases h with h | h
      · left; rw [List.map_cons, h]; exact List.mem_cons_self _ _
      · rcases ih h with h2 | h2
        · left; rw [List.map_cons]; exact List.mem_cons_of_mem _ h2
        · right; exact h2

theorem nodup_fst_updAnn {l : List (String × String)} {k v : String}
    (hnd : (l.map Prod.fst).Nodup) : ((updAnn l k v).map Prod.fst).Nodup := by
  induction l with
  | nil => simp [updAnn]
  | cons a t ih =>
    rw [List.map_cons, List.nodup_cons] at hnd
    by_cases hk : a.1 = k
    · simp only [updAnn, if_pos hk, List.map_cons, List.nodup_cons]
      exact ⟨hk ▸ hnd.1, hnd.2⟩
    · simp only [updAnn, if_neg hk, List.map_cons, List.nodup_cons]
      refine ⟨fun hmem => ?_, ih hnd.2⟩
      rcases mem_fst_updAnn hmem with h | h
      · exact hnd.1 h
      · exact hk h

theorem updAnn_perm {k v : String} :
    ∀ {l1 l2 : List (String × String)}, List.Perm l1 l2 →
      (l1.map Prod.fst).Nodup → List.Perm (updAnn l1 k v) (updAnn l2 k v) := by
  intro l1 l2 h
  induction h with
  | nil => intro _; exact List.Perm.refl _
  | cons a h ih =>
    intro hnd
    rw [List.map_cons, List.nodup_cons] at hnd
    by_cases hk : a.1 = k
    · simpa only [updAnn, if_pos hk] using List.Perm.cons _ h
    · simpa only [updAnn, if_neg hk] using List.Perm.cons _ (ih hnd.2)
  | swap x y t =>
    intro hnd
    rw [List.map_cons, List.map_cons, List.nodup_cons] at hnd
    have hxy : y.1 ≠ x.1 := fun hh => hnd.1 (by simp [hh])
    by_cases hyk : y.1 = k
    · have hxk : x.1 ≠ k := fun hh => hxy (hyk.trans hh.symm)
      simp only [updAnn, if_pos hyk, if_neg hxk]
      exact List.Perm.swap x (k, v) t
    · by_cases hxk : x.1 = k
      · simp only [updAnn, if_pos hxk, if_neg hyk]
        exact List.Perm.swap (k, v) y t
      · simp only [updAnn, if_neg hyk, if_neg hxk]
        exact List.Perm.swap x y (updAnn t k v)
  | trans h12 h23 ih1 ih2 =>
    intro hnd
    exact (ih1 hnd).trans (ih2 (((h12.map Prod.fst).nodup_iff).mp hnd))

theorem annotationsAfterVCS_perm {l1 l2 : List (String × String)} (vcs : String)
    (h : List.Perm l1 l2) (hnd : (l1.map Prod.fst).Nodup) :
    List.Perm (annotationsAfterVCS l1 vcs) (annotationsAfterVCS l2 vcs) := by
  unfold annotationsAfterVCS
  split
  · cases hcut : cutVCS vcs with
    | none => simpa [hcut] using h
    | some p =>
      rcases p with ⟨url, hash⟩
      simp only [hcut]
      exact updAnn_perm (updAnn_perm h hnd) (nodup_fst_updAnn hnd)
  · exact h

theorem annotationsAfterVCS_nodup {l : List (String × String)} (vcs : String)
    (hnd : (l.map Prod.fst).Nodup) :
    ((annotationsAfterVCS l vcs).map Prod.fst).Nodup := by
  unfold annotationsAfterVCS
  split
  · cases hcut : cutVCS vcs with
    | none => simpa [hcut] using hnd
    | some p =>
      rcases p with ⟨url, hash⟩
      simp only [hcut]
      exact nodup_fst_updAnn (nodup_fst_updAnn hnd)
  · exact hnd

/-! ## Two configurations denoting the same Go value -/

/-- Two embedded `ImageConfiguration`s denote the same Go value when every
field agrees and the map-valued fields (`environment`, `annotations`) agree as
maps, i.e. up to permutation of their iteration order, with distinct keys as a
Go map guarantees. -/
def EquivConfig (ic1 ic2 : ImageConfiguration) : Prop :=
  ic1.entrypoint = ic2.entrypoint ∧ ic1.cmd = ic2.cmd ∧ ic1.workDir = ic2.workDir ∧
    List.Perm ic1.environment ic2.environment ∧ ic1.accounts = ic2.accounts ∧
    List.Perm (ic1.annotations.getD []) (ic2.annotations.getD []) ∧
    ((ic1.annotations.getD []).map Prod.fst).Nodup ∧ ic1.vcsUrl = ic2.vcsUrl

instance (ic1 ic2 : ImageConfiguration) : Decidable (EquivConfig ic1 ic2) := by
  unfold EquivConfig
  exact inferInstance

/-- Config synthesis depends on the environment map only through the sorted
rendering, hence is invariant across iteration orders of equal maps. -/
theorem synthConfig_congr {ic1 ic2 : ImageConfiguration} (created : Int)
    (arch : Architecture) (h : EquivConfig ic1 ic2) :
    synthConfig ic1 created arch = synthConfig ic2 created arch := by
  obtain ⟨he, hc, hw, henv, hacc, _, _, _⟩ := h
  have hsort : sortStrings (ic1.environment.map renderEnv)
      = sortStrings (ic2.environment.map renderEnv) :=
    sortStrings_eq_of_perm (henv.map renderEnv)
  have hlen : ic1.environment.length = ic2.environment.length := henv.length_eq
  simp only [synthConfig, applyEntrypoint, applyCmd, applyWorkDir, applyEnv, applyUser]
  rw [he, hc, hw, hacc, hsort, hlen]

/-- Image assembly is invariant across iteration orders of equal maps; with
the other inputs fixed this is the determinism of the build. -/
theorem buildImage_congr {ic1 ic2 : ImageConfiguration} (mediaType : MediaType)
    (layerBytes : List Nat) (created : Int) (arch : Architecture)
    (fs : String → Option (List Nat)) (sbomPath : String) (sbomFormats : List String)
    (h : EquivConfig ic1 ic2) :
    buildImageFromLayerWithMediaType mediaType layerBytes ic1 created arch fs
        sbomPath sbomFormats
      = buildImageFromLayerWithMediaType mediaType layerBytes ic2 created arch fs
        sbomPath sbomFormats := by
  have hsc := synthConfig_congr created arch h
  obtain ⟨he, hc, hw, henv, hacc, hannp, hnd, hvcs⟩ := h
  have hp : List.Perm (annotationsAfterVCS (ic1.annotations.getD []) ic2.vcsUrl)
      (annotationsAfterVCS (ic2.annotations.getD []) ic2.vcsUrl) :=
    annotationsAfterVCS_perm ic2.vcsUrl hannp hnd
  have hnd1 : ((annotationsAfterVCS (ic1.annotations.getD []) ic2.vcsUrl).map Prod.fst).Nodup :=
    annotationsAfterVCS_nodup ic2.vcsUrl hnd
  have hsort : sortPairs (annotationsAfterVCS (ic1.annotations.getD []) ic2.vcsUrl)
      = sortPairs (annotationsAfterVCS (ic2.annotations.getD []) ic2.vcsUrl) :=
    sortPairs_eq_of_perm hp hnd1
  have hlen : (annotationsAfterVCS (ic1.annotations.getD []) ic2.vcsUrl).length
      = (annotationsAfterVCS (ic2.annotations.getD []) ic2.vcsUrl).length :=
    hp.length_eq
  simp only [buildImageFromLayerWithMediaType]
  rw [hvcs, hsc, hsort, hlen]

/-! ## Shape of a successful build -/

theorem attachSBOM_image_shape {si : SignedImage} {sbomPath : String}
    {sbomFormats : List String} {arch : Architecture} {fs : String → Option (List Nat)}
    {ent : SignedEntity} {w : Bool}
    (h : attachSBOM (SignedEntity.image si) sbomPath sbomFormats arch fs = .ok (ent, w)) :
    ∃ i, ent = SignedEntity.image i ∧ i.config = si.config ∧ i.annotations = si.annotations
      ∧ i.manifestMediaType = si.manifestMediaType ∧ i.layers = si.layers := by
  cases sbomFormats with
  | nil =>
    simp only [attachSBOM] at h
    injection h with h
    injection h with h1 h2
    exact ⟨si, h1.symm, rfl, rfl, rfl, rfl⟩
  | cons format rest =>
    simp only [attachSBOM] at h
    rcases hspec : sbomSpec format (sbomArchName arch) with _ | ⟨mt, fn⟩ <;>
      rw [hspec] at h <;> simp only [] at h
    · cases h
    · rcases hfs : fs (joinPath sbomPath fn) with _ | bytes <;> rw [hfs] at h <;>
        simp only [] at h
      · cases h
      · injection h with h
        injection h with h1 h2
        exact ⟨{ si with sbom := some { mediaType := mt, bytes := bytes } },
          h1.symm, rfl, rfl, rfl, rfl⟩

theorem build_ok_shape {mediaType : MediaType} {layerBytes : List Nat}
    {ic : ImageConfiguration} {created : Int} {arch : Architecture}
    {fs : String → Option (List Nat)} {sbomPath : String} {sbomFormats : List String}
    {img : SignedImage}
    (h : buildImageFromLayerWithMediaType mediaType layerBytes ic created arch fs
        sbomPath sbomFormats = .ok img) :
    ∃ cfg, synthConfig ic created arch = .ok cfg ∧ img.config = cfg := by
  unfold buildImageFromLayerWithMediaType at h
  rcases hsc : synthConfig ic created arch with e | cfg <;> rw [hsc] at h <;>
    simp only [] at h
  · cases h
  · refine ⟨cfg, rfl, ?_⟩
    split at h
    · cases h
    · next si2 w heq =>
      obtain ⟨i, hent, hcfg, _, _, _⟩ := attachSBOM_image_shape heq
      injection hent with hent
      injection h with h
      rw [← h, hent, hcfg]
    · next idx w heq =>
      obtain ⟨i, hent, _, _, _, _⟩ := attachSBOM_image_shape heq
      simp at hent

/-! ## Field behavior of the config synthesis steps -/

theorem applyUser_env (c : ConfigFile) (ic : ImageConfiguration) :
    (applyUser c ic).env = c.env := by
  unfold applyUser; split <;> rfl

theorem applyUser_entry (c : ConfigFile) (ic : ImageConfiguration) :
    (applyUser c ic).entrypoint = c.entrypoint := by
  unfold applyUser; split <;> rfl

theorem applyEnv_env (c : ConfigFile) (ic : ImageConfiguration) :
    (applyEnv c ic).env = if 0 < ic.environment.length then
      sortStrings (ic.environment.map renderEnv) else [defaultPathEnv, defaultSSLCertEnv] := by
  unfold applyEnv; split <;> simp [*]

theorem applyEnv_entry (c : ConfigFile) (ic : ImageConfiguration) :
    (applyEnv c ic).entrypoint = c.entrypoint := by
  unfold applyEnv; split <;> rfl

theorem applyWorkDir_entry (c : ConfigFile) (ic : ImageConfiguration) :
    (applyWorkDir c ic).entrypoint = c.entrypoint := by
  unfold applyWorkDir; split <;> rfl

theorem applyCmd_ok_entry {c c' : ConfigFile} {ic : ImageConfiguration}
    (h : applyCmd c ic = .ok c') : c'.entrypoint = c.entrypoint := by
  unfold applyCmd at h
  split at h
  · split at h
    · cases h
    · injection h with h; rw [← h]
  · injection h with h; rw [← h]

theorem synthConfig_ok_env {ic : ImageConfiguration} {created : Int} {arch : Architecture}
    {cfg : ConfigFile} (h : synthConfig ic created arch = .ok cfg) :
    cfg.env = if 0 < ic.environment.length then
      sortStrings (ic.environment.map renderEnv) else [defaultPathEnv, defaultSSLCertEnv] := by
  simp only [synthConfig] at h
  split at h
  · cases h
  · split at h
    · cases h
    · injection h with h
      rw [← h, applyUser_env, applyEnv_env]

theorem synthConfig_ok_entry {ic : ImageConfiguration} {created : Int} {arch : Architecture}
    {cfg : ConfigFile} (h : synthConfig ic created arch = .ok cfg) :
    (ic.entrypoint.shellFragment ≠ "" →
      cfg.entrypoint = ["/bin/sh", "-c", ic.entrypoint.shellFragment]) ∧
    (ic.entrypoint.shellFragment = "" → ic.entrypoint.command ≠ "" →
      ∀ argv, shlexSplit ic.entrypoint.command = .ok argv → cfg.entrypoint = argv) ∧
    (ic.entrypoint.shellFragment = "" → ic.entrypoint.command = "" →
      cfg.entrypoint = []) := by
  simp only [synthConfig] at h
  split at h
  · cases h
  · next c1 heq =>
    split at h
    · cases h
    · next c2 heq2 =>
      injection h with h
      have hentry : cfg.entrypoint = c1.entrypoint := by
        rw [← h, applyUser_entry, applyEnv_entry, applyWorkDir_entry, applyCmd_ok_entry heq2]
      unfold applyEntrypoint at heq
      split at heq
      · next hfrag =>
        injection heq with heq
        refine ⟨fun _ => ?_, fun hfeq => absurd hfeq hfrag, fun hfeq => absurd hfeq hfrag⟩
        rw [hentry, ← heq]
      · split at heq
        · next hfrag hcmd =>
          split at heq
          · cases heq
          · next argv0 hsplit =>
            injection heq with heq
            refine ⟨fun hne => absurd hne hfrag, fun _ _ argv hargv => ?_,
              fun _ hceq => absurd hceq hcmd⟩
            rw [hsplit] at hargv
            injection hargv with hargv
            rw [hentry, ← heq, hargv]
        · next hfrag hcmd =>
          injection heq with heq
          refine ⟨fun hne => absurd hne hfrag, fun _ hne _ _ => absurd hne hcmd, fun _ _ => ?_⟩
          rw [hentry, ← heq]

/-! ## Error propagation for a malformed cmd string -/

theorem shlexSplit_empty : shlexSplit "" = .ok [] := rfl

theorem synthConfig_cmd_error {ic : ImageConfiguration} {created : Int} {arch : Architecture}
    {e : String} (h : shlexSplit ic.cmd = .error e) :
    ∃ e2, synthConfig ic created arch = .error e2 := by
  have hcmd : ic.cmd ≠ "" := by
    intro hceq
    rw [hceq, shlexSplit_empty] at h
    cases h
  simp only [synthConfig]
  split
  · next e1 _ => exact ⟨e1, rfl⟩
  · next c1 _ =>
    have : applyCmd c1 ic = .error ("unable to parse cmd: " ++ e) := by
      unfold applyCmd
      rw [if_pos hcmd, h]
    rw [this]
    exact ⟨"unable to parse cmd: " ++ e, rfl⟩

theorem build_error_of_synth {mediaType : MediaType} {layerBytes : List Nat}
    {ic : ImageConfiguration} {created : Int} {arch : Architecture}
    {fs : String → Option (List Nat)} {sbomPath : String} {sbomFormats : List String}
    {e : String} (h : synthConfig ic created arch = .error e) :
    buildImageFromLayerWithMediaType mediaType layerBytes ic created arch fs
      sbomPath sbomFormats = .error e := by
  simp only [buildImageFromLayerWithMediaType]
  rw [h]

/-! ## The publish tag loop -/

theorem publishLoop_all_ok {o : Oracles} {image : SignedImage} {hash : Hash}
    {isLocal : Bool} :
    ∀ (ts1 : List String) (t : String) (d0 : NameDigest) (tr0 : List WriteEvent)
      (dlast : NameDigest) (trlast : List WriteEvent),
      (∀ t' ∈ ts1, ∃ d tr, publishTagFromImage o image t' hash isLocal = (.ok d, tr)) →
      publishTagFromImage o image t hash isLocal = (.ok dlast, trlast) →
      (publishLoop o image hash isLocal (ts1 ++ [t]) d0 tr0).1 = .ok dlast := by
  intro ts1
  induction ts1 with
  | nil =>
    intro t d0 tr0 dlast trlast _ hlast
    simp only [List.nil_append, publishLoop]
    rw [hlast]
  | cons a ts1 ih =>
    intro t d0 tr0 dlast trlast hall hlast
    obtain ⟨d, tr, heq⟩ := hall a (List.mem_cons_self a _)
    simp only [List.cons_append, publishLoop]
    rw [heq]
    exact ih t d (tr0 ++ tr) dlast trlast
      (fun t' ht' => hall t' (List.mem_cons_of_mem a ht')) hlast

theorem publishLoop_fail {o : Oracles} {image : SignedImage} {hash : Hash}
    {isLocal : Bool} :
    ∀ (ts1 : List String) (t : String) (ts2 ts2' : List String) (d0 : NameDigest)
      (tr0 : List WriteEvent) (e : String) (tre : List WriteEvent),
      (∀ t' ∈ ts1, ∃ d tr, publishTagFromImage o image t' hash isLocal = (.ok d, tr)) →
      publishTagFromImage o image t hash isLocal = (.error e, tre) →
      publishLoop o image hash isLocal (ts1 ++ t :: ts2) d0 tr0 =
        publishLoop o image hash isLocal (ts1 ++ t :: ts2') d0 tr0 ∧
      (publishLoop o image hash isLocal (ts1 ++ t :: ts2) d0 tr0).1 = .error e := by
  intro ts1
  induction ts1 with
  | nil =>
    intro t ts2 ts2' d0 tr0 e tre _ hfail
    simp only [List.nil_append, publishLoop]
    rw [hfail]
    exact ⟨rfl, rfl⟩
  | cons a ts1 ih =>
    intro t ts2 ts2' d0 tr0 e tre hall hfail
    obtain ⟨d, tr, heq⟩ := hall a (List.mem_cons_self a _)
    simp only [List.cons_append, publishLoop]
    rw [heq]
    exact ih t ts2 ts2' d (tr0 ++ tr) e tre
      (fun t' ht' => hall t' (List.mem_cons_of_mem a ht')) hfail

/-! ## Characterizing the SBOM format switch -/

theorem sbomSpec_eq_none_iff (format archName : String) :
    sbomSpec format archName = none ↔
      ¬(format = "spdx" ∨ format = "cyclonedx" ∨ format = "idb") := by
  constructor
  · intro h
    intro hor
    rcases hor with h1 | h1 | h1 <;> rw [h1] at h <;> simp [sbomSpec] at h
  · intro hnot
    unfold sbomSpec
    split
    · exact absurd (Or.inl rfl) hnot
    · exact absurd (Or.inr (Or.inl rfl)) hnot
    · exact absurd (Or.inr (Or.inr rfl)) hnot
    · rfl

theorem sbomSpec_eq_some_or (format archName : String) {x : String × String}
    (h : sbomSpec format archName = some x) :
    format = "spdx" ∨ format = "cyclonedx" ∨ format = "idb" := by
  by_contra hnot
  rw [(sbomSpec_eq_none_iff format archName).mpr hnot] at h
  cases h

/-! ## Claim theorems -/

/-- C1: Determinism of assembly: for a fixed tuple of layer file bytes,
ImageConfiguration (as a map value, i.e. up to iteration order of its
environment and annotations maps), creation timestamp, architecture, media
type, SBOM path and SBOM format list, two independent calls to
`buildImageFromLayerWithMediaType` return the same result; in particular any
two produced images have identical manifest digests. -/
theorem C1_assembly_deterministic (mediaType : MediaType) (layerBytes : List Nat)
    (ic1 ic2 : ImageConfiguration) (created : Int) (arch : Architecture)
    (fs : String → Option (List Nat)) (sbomPath : String) (sbomFormats : List String)
    (h : EquivConfig ic1 ic2) :
    buildImageFromLayerWithMediaType mediaType layerBytes ic1 created arch fs
        sbomPath sbomFormats
      = buildImageFromLayerWithMediaType mediaType layerBytes ic2 created arch fs
        sbomPath sbomFormats ∧
    ∀ i1 i2,
      buildImageFromLayerWithMediaType mediaType layerBytes ic1 created arch fs
        sbomPath sbomFormats = .ok i1 →
      buildImageFromLayerWithMediaType mediaType layerBytes ic2 created arch fs
        sbomPath sbomFormats = .ok i2 →
      imageDigest i1 = imageDigest i2 := by
  have heq := buildImage_congr mediaType layerBytes created arch fs sbomPath sbomFormats h
  refine ⟨heq, fun i1 i2 h1 h2 => ?_⟩
  rw [heq] at h1
  rw [h1] at h2
  injection h2 with h2
  rw [h2]

theorem C1_assembly_deterministic_witness :
    EquivConfig icW1 icW2 ∧
      buildImageFromLayerWithMediaType MediaType.ociLayer [] icW1 0 "amd64" fsNone "" []
        = buildImageFromLayerWithMediaType MediaType.ociLayer [] icW2 0 "amd64" fsNone "" [] :=
  ⟨by decide,
    (C1_assembly_deterministic MediaType.ociLayer [] icW1 icW2 0 "amd64" fsNone "" []
      (by decide)).1⟩

/-- C3: the claim says the caller-supplied ImageConfiguration is never
mutated.  The code violates this: with a non-nil annotations map and a VCS
URL containing `@`, the caller's map receives the two VCS-derived keys
(Go map aliasing at oci.go line 114, writes at lines 120-121), contradicting
the spec's "Immutable once passed in; owned by the caller".  This theorem
evaluates the embedded post-state at the failing input. -/
theorem C3_mutation_eval :
    buildImageICAfter icC3 ≠ icC3 ∧
    buildImageICAfter icC3 = { icC3 with annotations := some [("team", "apko"),
      ("org.opencontainers.image.source", "https://github.com/x/y"),
      ("org.opencontainers.image.revision", "deadbeef")] } :=
  ⟨by decide, by decide⟩

/-- C4: environment synthesis: on a successful build, if the configuration
supplies at least one variable the synthesized config's Env is exactly the
KEY=VALUE renderings sorted lexicographically — the same list for every
iteration order `e2` of the map — and if it supplies none, Env is exactly the
default PATH/SSL_CERT_FILE pair. -/
theorem C4_env_synthesis (mediaType : MediaType) (layerBytes : List Nat)
    (ic : ImageConfiguration) (created : Int) (arch : Architecture)
    (fs : String → Option (List Nat)) (sbomPath : String) (sbomFormats : List String)
    (img : SignedImage) (e2 : List (String × String))
    (hbuild : buildImageFromLayerWithMediaType mediaType layerBytes ic created arch fs
      sbomPath sbomFormats = .ok img)
    (hperm : List.Perm ic.environment e2) :
    (ic.environment ≠ [] → img.config.env = sortStrings (e2.map renderEnv)) ∧
    (ic.environment = [] → img.config.env = [defaultPathEnv, defaultSSLCertEnv]) := by
  obtain ⟨cfg, hsc, hcfg⟩ := build_ok_shape hbuild
  have henv := synthConfig_ok_env hsc
  constructor
  · intro hne
    have hlen : 0 < ic.environment.length := List.length_pos.mpr hne
    rw [hcfg, henv, if_pos hlen, sortStrings_eq_of_perm (hperm.map renderEnv)]
  · intro hemp
    rw [hcfg, henv, hemp]
    simp

theorem C4_env_synthesis_witness :
    imgW4.config.env = ["A=1", "B=2"] ∧
      (icW4.environment ≠ [] →
        imgW4.config.env = sortStrings ([("A", "1"), ("B", "2")].map renderEnv)) :=
  ⟨by decide,
    (C4_env_synthesis MediaType.ociLayer [] icW4 0 "amd64" fsNone "" [] imgW4
      [("A", "1"), ("B", "2")] rfl (by decide)).1⟩

/-- C5: entrypoint precedence: on a successful build, a non-empty shell
fragment forces entrypoint `["/bin/sh","-c",fragment]` (even when a command
is also set); else a non-empty command is shlex-tokenized into the
entrypoint; else the entrypoint stays empty. -/
theorem C5_entrypoint_precedence (mediaType : MediaType) (layerBytes : List Nat)
    (ic : ImageConfiguration) (created : Int) (arch : Architecture)
    (fs : String → Option (List Nat)) (sbomPath : String) (sbomFormats : List String)
    (img : SignedImage)
    (hbuild : buildImageFromLayerWithMediaType mediaType layerBytes ic created arch fs
      sbomPath sbomFormats = .ok img) :
    (ic.entrypoint.shellFragment ≠ "" →
      img.config.entrypoint = ["/bin/sh", "-c", ic.entrypoint.shellFragment]) ∧
    (ic.entrypoint.shellFragment = "" → ic.entrypoint.command ≠ "" →
      ∀ argv, shlexSplit ic.entrypoint.command = .ok argv → img.config.entrypoint = argv) ∧
    (ic.entrypoint.shellFragment = "" → ic.entrypoint.command = "" →
      img.config.entrypoint = []) := by
  obtain ⟨cfg, hsc, hcfg⟩ := build_ok_shape hbuild
  rw [hcfg]
  exact synthConfig_ok_entry hsc

theorem C5_entrypoint_precedence_witness :
    icW5.entrypoint.shellFragment ≠ "" ∧ icW5.entrypoint.command ≠ "" ∧
      imgW5.config.entrypoint = ["/bin/sh", "-c", "echo hi"] :=
  ⟨by decide, by decide,
    (C5_entrypoint_precedence MediaType.ociLayer [] icW5 0 "amd64" fsNone "" [] imgW5
      rfl).1 (by decide)⟩

/-- C7: SBOM attachment policy: an empty requested-format list returns the
artifact unchanged with no error (and no warning); a non-empty list attaches
exactly one SBOM — the file of the first requested format — warning exactly
when further formats were requested, and the call errors exactly when the
first format is not one of spdx/cyclonedx/idb or the derived SBOM file cannot
be read. -/
theorem C7_sbom_policy (si : SignedEntity) (sbomPath : String) (sbomFormats : List String)
    (arch : Architecture) (fs : String → Option (List Nat)) :
    (sbomFormats = [] → attachSBOM si sbomPath sbomFormats arch fs = .ok (si, false)) ∧
    (∀ format rest, sbomFormats = format :: rest →
      ((∃ e, attachSBOM si sbomPath sbomFormats arch fs = .error e) ↔
        (¬(format = "spdx" ∨ format = "cyclonedx" ∨ format = "idb") ∨
          ∃ mt fn, sbomSpec format (sbomArchName arch) = some (mt, fn) ∧
            fs (joinPath sbomPath fn) = none)) ∧
      (∀ ent warned, attachSBOM si sbomPath sbomFormats arch fs = .ok (ent, warned) →
        (∃ mt fn bytes, sbomSpec format (sbomArchName arch) = some (mt, fn) ∧
          fs (joinPath sbomPath fn) = some bytes ∧
          ent = si.setSBOM { mediaType := mt, bytes := bytes }) ∧
        (warned = true ↔ rest ≠ []))) := by
  constructor
  · intro hemp; subst hemp; rfl
  · intro format rest hcons
    subst hcons
    simp only [attachSBOM]
    rcases hspec : sbomSpec format (sbomArchName arch) with _ | ⟨mt, fn⟩ <;>
      simp only [hspec]
    · constructor
      · constructor
        · intro _
          exact Or.inl ((sbomSpec_eq_none_iff _ _).mp hspec)
        · intro _
          exact ⟨_, rfl⟩
      · intro ent warned h
        cases h
    · rcases hfs : fs (joinPath sbomPath fn) with _ | bytes <;> simp only [hfs]
      · constructor
        · constructor
          · intro _
            exact Or.inr ⟨mt, fn, rfl, hfs⟩
          · intro _
            exact ⟨_, rfl⟩
        · intro ent warned h
          cases h
      · constructor
        · constructor
          · intro ⟨e, he⟩
            cases he
          · intro hor
            rcases hor with hnot | ⟨mt2, fn2, hsome, hfs2⟩
            · exact absurd (sbomSpec_eq_some_or format (sbomArchName arch) hspec) hnot
            · injection hsome with hsome
              injection hsome with hmt hfn
              rw [← hfn, hfs] at hfs2
              cases hfs2
        · intro ent warned h
          injection h with h
          injection h with hent hwarn
          refine ⟨⟨mt, fn, bytes, rfl, hfs, hent.symm⟩, ?_⟩
          rw [← hwarn]
          cases rest <;> simp

theorem C7_sbom_policy_witness :
    attachSBOM (SignedEntity.image defImage) "p" [] "amd64" fsSpdx
        = .ok (SignedEntity.image defImage, false) ∧
    (∃ mt fn bytes, sbomSpec "spdx" (sbomArchName "amd64") = some (mt, fn) ∧
      fsSpdx (joinPath "p" fn) = some bytes ∧
      (SignedEntity.image defImage).setSBOM { mediaType := spdxJSONMediaType, bytes := [1] }
        = (SignedEntity.image defImage).setSBOM { mediaType := mt, bytes := bytes }) ∧
    (true = true ↔ (["cyclonedx"] : List String) ≠ []) := by
  refine ⟨(C7_sbom_policy (SignedEntity.image defImage) "p" [] "amd64" fsSpdx).1 rfl, ?_, ?_⟩
  · exact (((C7_sbom_policy (SignedEntity.image defImage) "p" ["spdx", "cyclonedx"] "amd64"
      fsSpdx).2 "spdx" ["cyclonedx"] rfl).2
      ((SignedEntity.image defImage).setSBOM { mediaType := spdxJSONMediaType, bytes := [1] })
      true rfl).1
  · exact (((C7_sbom_policy (SignedEntity.image defImage) "p" ["spdx", "cyclonedx"] "amd64"
      fsSpdx).2 "spdx" ["cyclonedx"] rfl).2
      ((SignedEntity.image defImage).setSBOM { mediaType := spdxJSONMediaType, bytes := [1] })
      true rfl).2

/-- C8: malformed cmd tokenization is fatal before digest computation: when
the Cmd string fails shlex tokenization, the build returns an error, and the
publish entry point propagates an error with an empty write trace and no
digest ever returned. -/
theorem C8_malformed_cmd_fatal (o : Oracles) (mediaType : MediaType) (layerBytes : List Nat)
    (ic : ImageConfiguration) (created : Int) (arch : Architecture)
    (fs : String → Option (List Nat)) (sbomPath : String) (sbomFormats : List String)
    (isLocal : Bool) (tags : List String) (e : String)
    (h : shlexSplit ic.cmd = .error e) :
    (∃ e2, buildImageFromLayerWithMediaType mediaType layerBytes ic created arch fs
      sbomPath sbomFormats = .error e2) ∧
    (∃ e2, publishImageFromLayerWithMediaType o mediaType layerBytes ic created arch fs
      sbomPath sbomFormats isLocal tags = (.error e2, [])) := by
  obtain ⟨e2, hsc⟩ := synthConfig_cmd_error h
  have hb := @build_error_of_synth mediaType layerBytes ic created arch fs sbomPath
    sbomFormats e2 hsc
  refine ⟨⟨e2, hb⟩, ⟨e2, ?_⟩⟩
  simp only [publishImageFromLayerWithMediaType]
  rw [hb]

theorem C8_malformed_cmd_fatal_witness :
    shlexSplit icW8.cmd = .error "EOF found when expecting closing quote" ∧
    (∃ e2, buildImageFromLayerWithMediaType MediaType.ociLayer [] icW8 0 "amd64" fsNone
      "" [] = .error e2) :=
  ⟨rfl,
    (C8_malformed_cmd_fatal oCx MediaType.ociLayer [] icW8 0 "amd64" fsNone "" [] false
      ["t"] "EOF found when expecting closing quote" rfl).1⟩

/-- C9: local publish naming: with the reference parsing, every daemon store
write performed by a local `publishTagFromImage` targets exactly the tag
`apko.local/cache:<digest-hex>` derived from the image's own digest; when the
tag is valid the trace is exactly that one write; and the returned digest
reference is the requested destination repository paired with the same
computed hash. -/
theorem C9_local_publish_naming (o : Oracles) (image : SignedImage) (imageRef ctx : String)
    (hctx : o.parseCtx imageRef = some ctx) :
    (∀ t, WriteEvent.daemonWrite t ∈
        (publishTagFromImage o image imageRef (imageDigest image) true).2 →
      t = LocalDomain ++ "/" ++ LocalRepo ++ ":" ++ (imageDigest image).hex) ∧
    (o.validTag (LocalDomain ++ "/" ++ LocalRepo ++ ":" ++ (imageDigest image).hex) = true →
      (publishTagFromImage o image imageRef (imageDigest image) true).2 =
        [WriteEvent.daemonWrite
          (LocalDomain ++ "/" ++ LocalRepo ++ ":" ++ (imageDigest image).hex)]) ∧
    (∀ d, (publishTagFromImage o image imageRef (imageDigest image) true).1 = .ok d →
      d = { context := ctx, digestStr := (imageDigest image).str }) := by
  cases hvt : o.validTag (LocalDomain ++ "/" ++ LocalRepo ++ ":" ++ (imageDigest image).hex)
  · have hred : publishTagFromImage o image imageRef (imageDigest image) true
        = (.error "invalid local tag", []) := by
      simp [publishTagFromImage, hctx, hvt]
    rw [hred]
    refine ⟨fun t ht => absurd ht (List.not_mem_nil _), fun hh => ?_, fun d hd => ?_⟩
    · cases hh
    · cases hd
  · rcases hdw : o.daemonWrite (LocalDomain ++ "/" ++ LocalRepo ++ ":" ++ (imageDigest image).hex)
      with e | resp
    · have hred : publishTagFromImage o image imageRef (imageDigest image) true
          = (.error ("failed to save OCI image locally: " ++ e),
            [WriteEvent.daemonWrite
              (LocalDomain ++ "/" ++ LocalRepo ++ ":" ++ (imageDigest image).hex)]) := by
        simp [publishTagFromImage, hctx, hvt, hdw]
      rw [hred]
      refine ⟨fun t ht => ?_, fun _ => rfl, fun d hd => ?_⟩
      · have h2 := List.mem_singleton.mp ht
        injection h2 with h2
      · cases hd
    · have hred : publishTagFromImage o image imageRef (imageDigest image) true
          = (.ok { context := ctx, digestStr := (imageDigest image).str },
            [WriteEvent.daemonWrite
              (LocalDomain ++ "/" ++ LocalRepo ++ ":" ++ (imageDigest image).hex)]) := by
        simp [publishTagFromImage, hctx, hvt, hdw]
      rw [hred]
      refine ⟨fun t ht => ?_, fun _ => rfl, fun d hd => ?_⟩
      · have h2 := List.mem_singleton.mp ht
        injection h2 with h2
      · injection hd with hd
        rw [← hd]

theorem C9_local_publish_naming_witness :
    oW9.parseCtx "dest.io/repo:tag" = some "dest.io/repo" ∧
    (publishTagFromImage oW9 imgCx "dest.io/repo:tag" (imageDigest imgCx) true).2 =
      [WriteEvent.daemonWrite
        (LocalDomain ++ "/" ++ LocalRepo ++ ":" ++ (imageDigest imgCx).hex)] :=
  ⟨rfl, (C9_local_publish_naming oW9 imgCx "dest.io/repo:tag" "dest.io/repo" rfl).2.1 rfl⟩

/-- C10: index publishing ignores the image configuration: for every media
type, oracle set, image map, local flag and tag list, the result (digest,
index and write trace) of `publishIndexWithMediaType` — and of its
`PublishIndex` / `PublishDockerIndex` entry points — is identical for any two
ImageConfiguration arguments. -/
theorem C10_index_ignores_config (o : Oracles) (mediaType : IndexMediaType)
    (ic1 ic2 : ImageConfiguration) (imgs : List (Architecture × SignedImage))
    (isLocal : Bool) (tags : List String) :
    publishIndexWithMediaType o mediaType ic1 imgs isLocal tags
      = publishIndexWithMediaType o mediaType ic2 imgs isLocal tags ∧
    PublishIndex o ic1 imgs isLocal tags = PublishIndex o ic2 imgs isLocal tags ∧
    PublishDockerIndex o ic1 imgs isLocal tags = PublishDockerIndex o ic2 imgs isLocal tags :=
  ⟨rfl, rfl, rfl⟩

/-- C2 counterexample: with tags `["t1","t2"]` against a registry where the
write of "t1" fails and the write of "t2" would succeed, the publish call
returns the first tag's error and its trace contains no write for "t2": the
remaining tag is not processed independently and no last-successful digest is
returned, contrary to the claim. -/
theorem C2_counterexample :
    publishImageFromLayerWithMediaType oCx MediaType.ociLayer [] icTriv 0 "amd64" fsNone
        "" [] false ["t1", "t2"]
      = (.error "failed to publish: boom", [WriteEvent.primaryWrite "t1"]) ∧
    (publishTagFromImage oCx imgCx "t2" (imageDigest imgCx) false).1
      = .ok { context := "t2", digestStr := (imageDigest imgCx).str } ∧
    buildImageFromLayerWithMediaType MediaType.ociLayer [] icTriv 0 "amd64" fsNone "" []
      = .ok imgCx :=
  ⟨rfl, rfl, rfl⟩

/-- C2 (amended): tags are published sequentially and fail-fast: if every tag
before `t` succeeds and publishing `t` fails, the whole call returns `t`'s
error and the tags after `t` have no effect at all (the result is the same
for any suffix); when every requested tag succeeds, the returned digest is
the one of the last tag. -/
theorem C2_publish_fail_fast (o : Oracles) (mediaType : MediaType) (layerBytes : List Nat)
    (ic : ImageConfiguration) (created : Int) (arch : Architecture)
    (fs : String → Option (List Nat)) (sbomPath : String) (sbomFormats : List String)
    (isLocal : Bool) :
    (∀ img ts1 t ts2 ts2' e tre,
      buildImageFromLayerWithMediaType mediaType layerBytes ic created arch fs
        sbomPath sbomFormats = .ok img →
      (∀ t' ∈ ts1, ∃ d tr, publishTagFromImage o img t' (imageDigest img) isLocal
        = (.ok d, tr)) →
      publishTagFromImage o img t (imageDigest img) isLocal = (.error e, tre) →
      publishImageFromLayerWithMediaType o mediaType layerBytes ic created arch fs
          sbomPath sbomFormats isLocal (ts1 ++ t :: ts2)
        = publishImageFromLayerWithMediaType o mediaType layerBytes ic created arch fs
          sbomPath sbomFormats isLocal (ts1 ++ t :: ts2') ∧
      (publishImageFromLayerWithMediaType o mediaType layerBytes ic created arch fs
        sbomPath sbomFormats isLocal (ts1 ++ t :: ts2)).1 = .error e) ∧
    (∀ img ts1 t dlast trlast,
      buildImageFromLayerWithMediaType mediaType layerBytes ic created arch fs
        sbomPath sbomFormats = .ok img →
      (∀ t' ∈ ts1, ∃ d tr, publishTagFromImage o img t' (imageDigest img) isLocal
        = (.ok d, tr)) →
      publishTagFromImage o img t (imageDigest img) isLocal = (.ok dlast, trlast) →
      ∃ tr, publishImageFromLayerWithMediaType o mediaType layerBytes ic created arch fs
        sbomPath sbomFormats isLocal (ts1 ++ [t]) = (.ok (dlast, img), tr)) := by
  constructor
  · intro img ts1 t ts2 ts2' e tre hbuild hall hfail
    obtain ⟨heq2, herr⟩ :=
      publishLoop_fail ts1 t ts2 ts2' { context := "", digestStr := "" } [] e tre hall hfail
    constructor
    · simp only [publishImageFromLayerWithMediaType]
      rw [hbuild]
      simp only []
      rw [heq2]
    · simp only [publishImageFromLayerWithMediaType]
      rw [hbuild]
      simp only []
      rcases hpl : publishLoop o img (imageDigest img) isLocal (ts1 ++ t :: ts2)
          { context := "", digestStr := "" } [] with ⟨res, tr⟩
      rw [hpl] at herr
      have hres : res = .error e := herr
      subst hres
      rfl
  · intro img ts1 t dlast trlast hbuild hall hlast
    have hlo := publishLoop_all_ok ts1 t { context := "", digestStr := "" } [] dlast trlast
      hall hlast
    simp only [publishImageFromLayerWithMediaType]
    rw [hbuild]
    simp only []
    rcases hpl : publishLoop o img (imageDigest img) isLocal (ts1 ++ [t])
        { context := "", digestStr := "" } [] with ⟨res, tr⟩
    rw [hpl] at hlo
    have hres : res = .ok dlast := hlo
    subst hres
    exact ⟨tr, rfl⟩

theorem C2_publish_fail_fast_witness :
    publishImageFromLayerWithMediaType oCx MediaType.ociLayer [] icTriv 0 "amd64" fsNone
        "" [] false ["t1", "t2"]
      = publishImageFromLayerWithMediaType oCx MediaType.ociLayer [] icTriv 0 "amd64"
        fsNone "" [] false ["t1"] ∧
    (publishImageFromLayerWithMediaType oCx MediaType.ociLayer [] icTriv 0 "amd64" fsNone
      "" [] false ["t1", "t2"]).1 = .error "failed to publish: boom" :=
  (C2_publish_fail_fast oCx MediaType.ociLayer [] icTriv 0 "amd64" fsNone "" [] false).1
    imgCx [] "t1" ["t2"] [] "failed to publish: boom" [WriteEvent.primaryWrite "t1"]
    rfl (fun t' ht' => absurd ht' (List.not_mem_nil t')) rfl

/-- C6: index ordering: with the architectures of the image map distinct (as
map keys are), the assembled index's manifest entries are ascending in the
architectures' string forms, the assembly is invariant under the map's
iteration order, the entries are exactly the members of the map, and each
entry's descriptor carries that member's media type, digest, size and OCI
platform. -/
theorem C6_index_ordering (imgs : List (Architecture × SignedImage))
    (hnd : (imgs.map Prod.fst).Nodup) :
    List.Pairwise (fun e1 e2 : IndexEntry =>
      strLe e1.platform.architecture e2.platform.architecture = true)
      (assembleEntries imgs) ∧
    (∀ imgs2, List.Perm imgs imgs2 → assembleEntries imgs = assembleEntries imgs2) ∧
    List.Perm ((assembleEntries imgs).map fun e => (e.platform.architecture, e.image))
      imgs ∧
    (∀ e ∈ assembleEntries imgs,
      e.descMediaType = e.image.manifestMediaType ∧ e.descDigest = imageDigest e.image ∧
      e.descSize = imageSize e.image ∧ e.platform = toOCIPlatform e.platform.architecture) := by
  refine ⟨?_, ?_, ?_, ?_⟩
  · unfold assembleEntries
    rw [List.pairwise_map]
    have hs : List.Pairwise (fun p q : Architecture × SignedImage => strLe p.1 q.1 = true)
        (sortPairs imgs) := List.sorted_insertionSort _ imgs
    exact hs.imp (fun h => h)
  · intro imgs2 hperm
    unfold assembleEntries
    rw [sortPairs_eq_of_perm hperm hnd]
  · unfold assembleEntries
    rw [List.map_map]
    rw [show ((fun e : IndexEntry => (e.platform.architecture, e.image)) ∘
        fun p : Architecture × SignedImage =>
          ({ image := p.2, descMediaType := p.2.manifestMediaType
             descDigest := imageDigest p.2, descSize := imageSize p.2
             platform := toOCIPlatform p.1 } : IndexEntry)) = id from funext fun p => rfl]
    rw [List.map_id]
    exact List.perm_insertionSort _ imgs
  · intro e he
    unfold assembleEntries at he
    rw [List.mem_map] at he
    obtain ⟨p, _, rfl⟩ := he
    exact ⟨rfl, rfl, rfl, rfl⟩

theorem C6_index_ordering_witness :
    (imgsW6.map Prod.fst).Nodup ∧
    List.Pairwise (fun e1 e2 : IndexEntry =>
      strLe e1.platform.architecture e2.platform.architecture = true)
      (assembleEntries imgsW6) ∧
    (assembleEntries imgsW6).map (fun e => e.platform.architecture) = ["amd64", "arm64"] :=
  ⟨by decide, (C6_index_ordering imgsW6 (by decide)).1, by decide⟩
